import Mathlib

/-!
Shallow embedding of the google-classroom-tui data-access layer:
the retry-aware API client (internal/api/client.go), the file-based
response cache (internal/cache/cache.go), and the OAuth authenticator
(internal/auth/oauth.go).  Machine time is modelled as Nat nanoseconds,
Go errors as an inductive whose rendered message drives the string-based
error classification the client uses, and the file system as explicit
state passed through each operation.
-/

/-- Decides whether the character list s starts with the pattern pat,
comparing characters pairwise (helper for the substring test below). -/
def startsWithChars : List Char → List Char → Bool
  | [], _ => true
  | _ :: _, [] => false
  | p :: ps, c :: cs => p == c && startsWithChars ps cs

/-- Decides whether pat occurs as a contiguous substring of s, scanning
from the left; the empty pattern always occurs (as in Go strings.Contains). -/
def hasSubChars : List Char → List Char → Bool
  | [], pat => pat.isEmpty
  | c :: cs, pat => startsWithChars pat (c :: cs) || hasSubChars cs pat

/-- Embedding of Go strings.Contains(s, pat). -/
def strIncludes (s pat : String) : Bool :=
  hasSubChars s.data pat.data

/-- Go error values as the client manipulates them: raw errors coming back
from the transport or the Classroom SDK, fmt.Errorf("...: %w", err) wraps
(the prefix stored includes the ": " separator), typed application errors
from internal/errors (an Error carrying an ErrorType code and a message —
client.go never constructs one), and ctx.Err() after cancellation. -/
inductive GoError where
  | raw (msg : String)
  | wrapped (pre : String) (inner : GoError)
  | typed (errType : Nat) (msg : String)
  | canceled
deriving DecidableEq

/-- The rendered message of a Go error (the Error() string), which is what
isRateLimitError and isAPIError inspect via strings.Contains. -/
def GoError.text : GoError → String
  | .raw msg => msg
  | .wrapped pre inner => pre ++ inner.text
  | .typed _ msg => msg
  | .canceled => "context canceled"

/-- True exactly for failures carried as the typed internal/errors Error
value; raw transport errors and fmt.Errorf wraps are not typed. -/
def GoError.isTypedFailure : GoError → Bool
  | .typed _ _ => true
  | _ => false

/-- Embedding of client.go isRateLimitError: the error message contains
"429" or "rate limit". -/
def isRateLimitError (e : String) : Bool :=
  strIncludes e "429" || strIncludes e "rate limit"

/-- Embedding of client.go isAPIError: the error message contains "403",
"404" or "401" (forbidden, not found, unauthorized: not retried). -/
def isAPIError (e : String) : Bool :=
  strIncludes e "403" || strIncludes e "404" || strIncludes e "401"

/-- One second, in the nanoseconds of Go time.Duration. -/
def timeSecond : Nat := 1000000000

/-- Embedding of api.Configuration (client.go): RateLimitBackoff is a Go
time.Duration in nanoseconds, MaxRetries a Go int. -/
structure Configuration where
  rateLimitBackoff : Nat
  maxRetries : Int
deriving DecidableEq

/-- Embedding of api.DefaultConfiguration: 1 second backoff, 3 retries. -/
def defaultConfiguration : Configuration :=
  ⟨timeSecond, 3⟩

/-- The context's Done channel, modelled as a deadline: the nonblocking
select on ctx.Done() in client.go observes cancellation exactly when the
current clock has reached the cancellation time (none = never cancelled). -/
def ctxDone (cancelAt : Option Nat) (clock : Nat) : Bool :=
  match cancelAt with
  | none => false
  | some tc => tc ≤ clock

deriving instance DecidableEq for Except

/-- What one executeWithRetry call produces: the Go (interface{}, error)
pair as an Except, the number of times fn was invoked (network attempts),
and the clock when the call returns (time.Sleep advances the clock). -/
structure RetryResult (α : Type) where
  result : Except GoError α
  calls : Nat
  clock : Nat
deriving DecidableEq

/-- The loop body of client.go executeWithRetry, recursing on the remaining
iterations of the hardcoded `for attempt := 0; attempt < 3; attempt++` loop:
at each iteration boundary the nonblocking ctx.Done() check runs; a nil
error returns the response; a rate-limit error sleeps the current backoff
(advancing the clock), doubles it and continues; an API error (403/404/401)
returns the raw error immediately; any other error is recorded and the loop
continues without sleeping.  After the loop the last error is wrapped as
fmt.Errorf("after %d attempts: %w", 3, lastErr). -/
def retryLoop (cancelAt : Option Nat) (fn : Nat → Except GoError α) :
    Nat → Nat → Nat → Nat → Option GoError → RetryResult α
  | 0, n, clock, _, lastErr =>
      ⟨.error (.wrapped "after 3 attempts: " (lastErr.getD (.raw "<nil>"))), n, clock⟩
  | rem + 1, n, clock, backoff, _lastErr =>
      if ctxDone cancelAt clock then
        ⟨.error .canceled, n, clock⟩
      else
        match fn n with
        | .ok a => ⟨.ok a, n + 1, clock⟩
        | .error e =>
            if isRateLimitError e.text then
              retryLoop cancelAt fn rem (n + 1) (clock + backoff) (backoff * 2) (some e)
            else if isAPIError e.text then
              ⟨.error e, n + 1, clock⟩
            else
              retryLoop cancelAt fn rem (n + 1) clock backoff (some e)

/-- Embedding of client.go executeWithRetry: the attempt budget is the
literal 3 and the starting backoff the literal time.Second from the source —
the caller's Configuration is not a parameter because the Go function does
not receive or read one (the Client struct stores only service and
httpClient).  fn maps the attempt index to that attempt's outcome and t0 is
the clock when the call starts. -/
def executeWithRetry (cancelAt : Option Nat) (fn : Nat → Except GoError α) (t0 : Nat) :
    RetryResult α :=
  retryLoop cancelAt fn 3 0 t0 timeSecond none

/-- Remote-schema course (classroom.Course), the fields client.go reads. -/
structure ClassroomCourse where
  id : String
  name : String
  sectionName : String
  descriptionHeading : String
  room : String
  ownerId : String
  enrollmentCode : String
  courseState : String
  creationTime : String
  updateTime : String
deriving DecidableEq

/-- Domain api.Course record (client.go). -/
structure Course where
  id : String
  name : String
  sectionName : String
  description : String
  room : String
  ownerID : String
  enrollmentCode : String
  courseState : String
  timeCreated : String
  updateTime : String
deriving DecidableEq

/-- Embedding of client.go convertCourse: field-by-field mapping from the
remote schema to the domain record. -/
def convertCourse (c : ClassroomCourse) : Course :=
  { id := c.id
    name := c.name
    sectionName := c.sectionName
    description := c.descriptionHeading
    room := c.room
    ownerID := c.ownerId
    enrollmentCode := c.enrollmentCode
    courseState := c.courseState
    timeCreated := c.creationTime
    updateTime := c.updateTime }

/-- One remote page of the courses.list endpoint: the page's courses and
the NextPageToken ("" when no further page exists). -/
structure CoursesPage where
  courses : List ClassroomCourse
  nextPageToken : String
deriving DecidableEq

/-- What one ListCourses call produces: the Go ([]*Course, error) pair,
the total number of network requests issued across all pages and retries,
the clock at return, and (ghost instrumentation) the page tokens requested
in order — "" stands for the first request, sent without a PageToken. -/
structure ListResult where
  result : Except GoError (List Course)
  requests : Nat
  clock : Nat
  tokensRequested : List String
deriving DecidableEq

/-- The pagination loop of client.go ListCourses: each iteration issues the
request for the current page token through executeWithRetry, appends the
converted courses, and continues with resp.NextPageToken until it is empty.
fetch maps (page token, attempt index) to that request's outcome.  The Go
loop has no bound, so the embedding carries fuel; none marks fuel running
out (only reachable if the remote keeps returning fresh tokens forever). -/
def listCoursesLoop (cancelAt : Option Nat)
    (fetch : String → Nat → Except GoError CoursesPage) :
    Nat → String → List Course → Nat → Nat → List String → Option ListResult
  | 0, _, _, _, _, _ => none
  | fuel + 1, tok, acc, reqs, clock, toks =>
      let r := executeWithRetry cancelAt (fetch tok) clock
      match r.result with
      | .error e =>
          some ⟨.error (.wrapped "failed to list courses: " e),
                reqs + r.calls, r.clock, toks ++ [tok]⟩
      | .ok page =>
          let acc2 := acc ++ page.courses.map convertCourse
          if page.nextPageToken = "" then
            some ⟨.ok acc2, reqs + r.calls, r.clock, toks ++ [tok]⟩
          else
            listCoursesLoop cancelAt fetch fuel page.nextPageToken acc2
              (reqs + r.calls) r.clock (toks ++ [tok])

/-- Embedding of client.go ListCourses: starts with the empty page token
and an empty accumulator.  The Client (client.go:18-21) holds only the
Classroom service and the HTTP client — there is no cache field, so no
cache state appears among the inputs. -/
def listCourses (cancelAt : Option Nat)
    (fetch : String → Nat → Except GoError CoursesPage) (fuel : Nat) :
    Option ListResult :=
  listCoursesLoop cancelAt fetch fuel "" [] 0 0 []

/-- A remote serving a finite chain of pages: ServesFrom fetch t ps toks
holds when, starting at page token t, the remote answers each request
(successfully, on the first attempt) with the next page of ps, handing out
a nonempty continuation token before every page but the last and the empty
token after the last; toks collects the tokens of the chain in request
order. -/
inductive ServesFrom (fetch : String → Nat → Except GoError CoursesPage) :
    String → List (List ClassroomCourse) → List String → Prop where
  | last (t : String) (p : List ClassroomCourse)
      (h : fetch t 0 = Except.ok ⟨p, ""⟩) :
      ServesFrom fetch t [p] [t]
  | cons (t t2 : String) (p : List ClassroomCourse)
      (ps : List (List ClassroomCourse)) (toks : List String)
      (h : fetch t 0 = Except.ok ⟨p, t2⟩) (hne : t2 ≠ "")
      (rest : ServesFrom fetch t2 ps toks) :
      ServesFrom fetch t (p :: ps) (t :: toks)

/-- Embedding of cache.CacheEntry (cache.go): the opaque serialized payload
(json.RawMessage, modelled as a string) plus the cached_at / expires_at
timestamps. -/
structure CacheEntry where
  data : String
  cachedAt : Nat
  expiresAt : Nat
deriving DecidableEq

/-- The content the cache can find at one file name: bytes that unmarshal
to a CacheEntry, bytes that fail to unmarshal, or a file whose read fails
with an error other than non-existence. -/
inductive FileData where
  | valid (e : CacheEntry)
  | invalid
  | unreadable
deriving DecidableEq

/-- The cache directory: one (file name, content) pair per file; a name
absent from the list is a file that does not exist.  Real directories hold
each name at most once; theorems that need that invariant assume it. -/
abbrev CacheDir := List (String × FileData)

/-- One character of cache.go getPath's sanitization: "/", ":" and " " are
each replaced by "_". -/
def sanitizeChar (c : Char) : Char :=
  if c = '/' ∨ c = ':' ∨ c = ' ' then '_' else c

/-- Embedding of the strings.ReplaceAll chain in cache.go getPath (every
pattern is a single character, so the chain is a character-wise map). -/
def sanitizeKey (s : String) : String :=
  String.mk (s.data.map sanitizeChar)

/-- Embedding of cache.go getPath, relative to the cache directory: the
sanitized key plus the ".json" suffix. -/
def cacheFileName (key : String) : String :=
  sanitizeKey key ++ ".json"

/-- Reads a directory entry by file name (first occurrence). -/
def lookupFile : CacheDir → String → Option FileData
  | [], _ => none
  | f :: rest, name => if f.1 = name then some f.2 else lookupFile rest name

/-- os.WriteFile: replaces the named file's content, creating the file if
absent. -/
def writeFile : CacheDir → String → FileData → CacheDir
  | [], name, d => [(name, d)]
  | f :: rest, name, d =>
      if f.1 = name then (name, d) :: rest else f :: writeFile rest name d

/-- os.Remove of one file name (first occurrence; no-op when absent). -/
def eraseFile : CacheDir → String → CacheDir
  | [], _ => []
  | f :: rest, name => if f.1 = name then rest else f :: eraseFile rest name

/-- Embedding of cache.go Get: a missing file is a miss (nil, nil); a read
failure or an entry that fails to parse is an error; an entry whose
expires_at lies strictly in the past (time.Now().After(ExpiresAt)) is
removed from disk and reported as a miss (nil, nil); otherwise the entry is
returned.  The pair is (Go return value, directory after the call). -/
def cacheGet (dir : CacheDir) (key : String) (now : Nat) :
    Except String (Option CacheEntry) × CacheDir :=
  let name := cacheFileName key
  match lookupFile dir name with
  | none => (.ok none, dir)
  | some .unreadable => (.error "failed to read cache", dir)
  | some .invalid => (.error "failed to parse cache entry", dir)
  | some (.valid e) =>
      if e.expiresAt < now then (.ok none, eraseFile dir name)
      else (.ok (some e), dir)

/-- Embedding of cache.go Set (the successful path): writes the entry with
cached_at = now and expires_at = now + ttl under the key's file name. -/
def cacheSet (dir : CacheDir) (key payload : String) (ttl now : Nat) : CacheDir :=
  writeFile dir (cacheFileName key) (.valid ⟨payload, now, now + ttl⟩)

/-- Embedding of cache.CacheStats; TotalSize (byte sizes on disk) is below
the granularity of this model and is omitted. -/
structure CacheStats where
  totalEntries : Nat
  validEntries : Nat
  expiredEntries : Nat
deriving DecidableEq

/-- One iteration of the cache.go GetStats loop: every entry counts toward
the total; an unreadable or unparsable file contributes nothing further
(the Go loop continues); a parsed entry counts as expired when
now.After(ExpiresAt) and as valid otherwise. -/
def statsBump (now : Nat) (s : CacheStats) (f : String × FileData) : CacheStats :=
  match f.2 with
  | .unreadable => { s with totalEntries := s.totalEntries + 1 }
  | .invalid => { s with totalEntries := s.totalEntries + 1 }
  | .valid e =>
      if e.expiresAt < now then
        { s with totalEntries := s.totalEntries + 1
                 expiredEntries := s.expiredEntries + 1 }
      else
        { s with totalEntries := s.totalEntries + 1
                 validEntries := s.validEntries + 1 }

/-- The GetStats directory walk, as a fold over the directory listing. -/
def getStatsLoop (now : Nat) : CacheDir → CacheStats → CacheStats
  | [], s => s
  | f :: rest, s => getStatsLoop now rest (statsBump now s f)

/-- Embedding of cache.go GetStats, starting from zeroed counters. -/
def getStats (dir : CacheDir) (now : Nat) : CacheStats :=
  getStatsLoop now dir ⟨0, 0, 0⟩

/-- True when a directory entry would be counted valid by GetStats. -/
def fileValid (now : Nat) (d : FileData) : Bool :=
  match d with
  | .valid e => decide (¬ e.expiresAt < now)
  | _ => false

/-- True when a directory entry would be counted expired by GetStats. -/
def fileExpired (now : Nat) (d : FileData) : Bool :=
  match d with
  | .valid e => decide (e.expiresAt < now)
  | _ => false

/-- Number of directory entries GetStats counts as valid. -/
def countValid (now : Nat) : CacheDir → Nat
  | [] => 0
  | f :: rest => (if fileValid now f.2 then 1 else 0) + countValid now rest

/-- Number of directory entries GetStats counts as expired. -/
def countExpired (now : Nat) : CacheDir → Nat
  | [] => 0
  | f :: rest => (if fileExpired now f.2 then 1 else 0) + countExpired now rest

/-- Embedding of cache.go GenerateKey: the endpoint followed by one
"key=value" part per parameter, joined with "&".  The Go source iterates a
map[string]string, whose iteration order is unspecified; the list order
stands for the iteration order the runtime happens to pick, and no sorting
is applied (the source has none). -/
def generateKey (endpoint : String) (params : List (String × String)) : String :=
  String.intercalate "&" (endpoint :: params.map (fun p => p.1 ++ "=" ++ p.2))

/-- The fields of the stored oauth2.Token that auth/oauth.go reads: the
access token, the refresh token and the expiry time (0 = the zero time,
which oauth2 treats as "never expires"). -/
structure Token where
  accessToken : String
  refreshToken : String
  expiry : Nat
deriving DecidableEq

/-- The early-expiry margin of oauth2 Token.Valid (expiryDelta = 10s). -/
def expiryDelta : Nat := 10 * timeSecond

/-- oauth2 Token.expired: false for the zero expiry; otherwise the token
counts as expired once expiry - expiryDelta lies before now. -/
def tokenExpired (t : Token) (now : Nat) : Bool :=
  t.expiry != 0 && decide (t.expiry < now + expiryDelta)

/-- oauth2 Token.Valid: a non-empty access token that is not expired. -/
def tokenValid (t : Token) (now : Nat) : Bool :=
  t.accessToken != "" && !tokenExpired t now

/-- The token file on disk as auth/oauth.go loadToken can find it: missing,
unreadable (read fails for another reason), unparsable JSON, or a stored
token. -/
inductive TokenFile where
  | missing
  | unreadable
  | corrupt
  | stored (t : Token)
deriving DecidableEq

/-- Embedding of auth/oauth.go loadToken. -/
def loadToken : TokenFile → Except String Token
  | .missing => .error "no stored token found"
  | .unreadable => .error "failed to read token"
  | .corrupt => .error "failed to parse token"
  | .stored t => .ok t

/-- Embedding of auth/oauth.go IsAuthenticated: loadToken must succeed and
the token must be currently valid or carry a non-empty refresh token. -/
def isAuthenticated (f : TokenFile) (now : Nat) : Bool :=
  match loadToken f with
  | .error _ => false
  | .ok t => tokenValid t now || t.refreshToken != ""

/-- Embedding of auth/oauth.go RefreshToken: load the stored token, fail
when it has no refresh token, otherwise ask the remote token endpoint for a
renewed token; on remote failure the error is wrapped and returned with the
stored file untouched (the source calls neither DeleteToken nor SaveToken
on this path); on success the renewed token is saved and returned.  remote
stands for config.TokenSource(ctx, token).Token(); the pair is (Go return
value, token file after the call). -/
def refreshToken (f : TokenFile) (remote : Token → Except String Token) :
    Except String Token × TokenFile :=
  match loadToken f with
  | .error e => (.error e, f)
  | .ok t =>
      if t.refreshToken = "" then (.error "no refresh token available", f)
      else
        match remote t with
        | .error e => (.error ("failed to refresh token: " ++ e), f)
        | .ok nt => (.ok nt, TokenFile.stored nt)

/-- A remote that always answers with a 429 rate-limit error. -/
def fn429 : Nat → Except GoError Unit :=
  fun _ => .error (.raw "googleapi: Error 429: rateLimitExceeded")

/-- A remote that always answers 404. -/
def fn404 : Nat → Except GoError Unit :=
  fun _ => .error (.raw "googleapi: Error 404: notFound")

/-- A remote that always answers 403. -/
def fn403 : Nat → Except GoError Unit :=
  fun _ => .error (.raw "googleapi: Error 403: forbidden")

/-- A sample remote course with the given id and empty remaining fields. -/
def rc (n : String) : ClassroomCourse :=
  ⟨n, "", "", "", "", "", "", "", "", ""⟩

/-- A remote serving three course pages of sizes 2, 2 and 1, chained by
the continuation tokens "t1" and "t2". -/
def pagedFetch : String → Nat → Except GoError CoursesPage :=
  fun t _ =>
    if t = "" then .ok ⟨[rc "c1", rc "c2"], "t1"⟩
    else if t = "t1" then .ok ⟨[rc "c3", rc "c4"], "t2"⟩
    else if t = "t2" then .ok ⟨[rc "c5"], ""⟩
    else .error (.raw "googleapi: Error 404: notFound")

/-- A remote serving a single course page with no continuation token. -/
def onePageFetch : String → Nat → Except GoError CoursesPage :=
  fun _ _ => .ok ⟨[rc "c1"], ""⟩

/-- A cache directory holding one fresh (unexpired) entry under the
fingerprint of the parameterless courses listing. -/
def freshCoursesDir : CacheDir :=
  [(cacheFileName (generateKey "courses" []), .valid ⟨"cached-courses-payload", 0, 1000⟩)]

/-- A stored token whose access token expired long ago but whose refresh
token is present. -/
def staleToken : Token :=
  ⟨"stale-access", "refresh-1", timeSecond⟩

/-- Unfolding equation of retryLoop for a positive iteration budget. -/
theorem retryLoop_succ (cancelAt : Option Nat) (fn : Nat → Except GoError α)
    (rem n clock backoff : Nat) (lastErr : Option GoError) :
    retryLoop cancelAt fn (rem + 1) n clock backoff lastErr =
      (if ctxDone cancelAt clock then
        ⟨.error .canceled, n, clock⟩
      else
        match fn n with
        | .ok a => ⟨.ok a, n + 1, clock⟩
        | .error e =>
            if isRateLimitError e.text then
              retryLoop cancelAt fn rem (n + 1) (clock + backoff) (backoff * 2) (some e)
            else if isAPIError e.text then
              ⟨.error e, n + 1, clock⟩
            else
              retryLoop cancelAt fn rem (n + 1) clock backoff (some e)) := rfl

/-- A request that succeeds on its first attempt returns that response at
once: one network call, no sleep. -/
theorem retry_first_ok {α : Type} (fn : Nat → Except GoError α) (a : α) (t0 : Nat)
    (h : fn 0 = .ok a) : executeWithRetry none fn t0 = ⟨.ok a, 1, t0⟩ := by
  show retryLoop none fn 3 0 t0 timeSecond none = _
  rw [show (3 : Nat) = 2 + 1 from rfl, retryLoop_succ]
  simp [ctxDone, h]

/-- Unfolding equation of the pagination loop for positive fuel. -/
theorem listCoursesLoop_succ (cancelAt : Option Nat)
    (fetch : String → Nat → Except GoError CoursesPage)
    (fuel : Nat) (tok : String) (acc : List Course) (reqs clock : Nat)
    (toks : List String) :
    listCoursesLoop cancelAt fetch (fuel + 1) tok acc reqs clock toks =
      (let r := executeWithRetry cancelAt (fetch tok) clock
       match r.result with
       | .error e =>
           some ⟨.error (.wrapped "failed to list courses: " e),
                 reqs + r.calls, r.clock, toks ++ [tok]⟩
       | .ok page =>
           let acc2 := acc ++ page.courses.map convertCourse
           if page.nextPageToken = "" then
             some ⟨.ok acc2, reqs + r.calls, r.clock, toks ++ [tok]⟩
           else
             listCoursesLoop cancelAt fetch fuel page.nextPageToken acc2
               (reqs + r.calls) r.clock (toks ++ [tok])) := rfl

/-- Running the pagination loop against a remote that serves a finite page
chain: starting from any accumulator, the loop requests exactly the chain's
tokens in order, appends the pages converted and in page order, and issues
one network call per page. -/
theorem listCoursesLoop_serves {fetch : String → Nat → Except GoError CoursesPage}
    {t : String} {ps : List (List ClassroomCourse)} {toks : List String}
    (h : ServesFrom fetch t ps toks) :
    ∀ fuel, ps.length ≤ fuel →
    ∀ acc reqs clock toks0,
      listCoursesLoop none fetch fuel t acc reqs clock toks0 =
        some ⟨.ok (acc ++ (ps.map (fun p => p.map convertCourse)).flatten),
              reqs + ps.length, clock, toks0 ++ toks⟩ := by
  induction h with
  | last t p hf =>
      intro fuel hfuel acc reqs clock toks0
      cases fuel with
      | zero => simp at hfuel
      | succ f =>
          rw [listCoursesLoop_succ]
          rw [retry_first_ok _ _ _ hf]
          simp
  | cons t t2 p ps toks hf hne rest ih =>
      intro fuel hfuel acc reqs clock toks0
      cases fuel with
      | zero => simp at hfuel
      | succ f =>
          rw [listCoursesLoop_succ]
          rw [retry_first_ok _ _ _ hf]
          simp only [List.length_cons] at hfuel
          have hrec := ih f (by omega) (acc ++ p.map convertCourse) (reqs + 1) clock (toks0 ++ [t])
          simp [hne, hrec]
          omega

/-- Writing a file and then reading it back by name finds the written
content. -/
theorem lookup_writeFile_self (dir : CacheDir) (name : String) (d : FileData) :
    lookupFile (writeFile dir name d) name = some d := by
  induction dir with
  | nil => simp [writeFile, lookupFile]
  | cons f rest ih =>
      by_cases h : f.1 = name
      · simp [writeFile, h, lookupFile]
      · simp [writeFile, h, lookupFile, ih]

/-- Removing a name right after writing it leaves what removing it from the
original directory leaves. -/
theorem erase_writeFile (dir : CacheDir) (name : String) (d : FileData) :
    eraseFile (writeFile dir name d) name = eraseFile dir name := by
  induction dir with
  | nil => simp [writeFile, eraseFile]
  | cons f rest ih =>
      by_cases h : f.1 = name
      · simp [writeFile, h, eraseFile]
      · simp [writeFile, h, eraseFile, ih]

/-- A name that appears nowhere in the directory listing is not found. -/
theorem lookup_none_of_not_mem (dir : CacheDir) (name : String)
    (h : name ∉ dir.map Prod.fst) : lookupFile dir name = none := by
  induction dir with
  | nil => rfl
  | cons f rest ih =>
      simp only [List.map_cons, List.mem_cons, not_or] at h
      have hne : f.1 ≠ name := fun he => h.1 he.symm
      simp [lookupFile, hne, ih h.2]

/-- Every name of the directory after a write is the written name or one of
the old names. -/
theorem mem_names_writeFile {dir : CacheDir} {name x : String} {d : FileData}
    (h : x ∈ (writeFile dir name d).map Prod.fst) :
    x = name ∨ x ∈ dir.map Prod.fst := by
  induction dir with
  | nil =>
      simp only [writeFile, List.map_cons, List.map_nil, List.mem_singleton] at h
      exact Or.inl h
  | cons f rest ih =>
      by_cases hf : f.1 = name
      · have hw : writeFile (f :: rest) name d = (name, d) :: rest := by
          simp [writeFile, hf]
        rw [hw] at h
        simp only [List.map_cons, List.mem_cons] at h
        rcases h with h | h
        · exact Or.inl h
        · exact Or.inr (List.mem_cons_of_mem _ h)
      · have hw : writeFile (f :: rest) name d = f :: writeFile rest name d := by
          simp [writeFile, hf]
        rw [hw] at h
        simp only [List.map_cons, List.mem_cons] at h
        rcases h with h | h
        · exact Or.inr (by simp [h])
        · rcases ih h with h2 | h2
          · exact Or.inl h2
          · exact Or.inr (List.mem_cons_of_mem _ h2)

/-- A write preserves distinctness of the directory's file names. -/
theorem nodup_names_writeFile (dir : CacheDir) (name : String) (d : FileData)
    (h : (dir.map Prod.fst).Nodup) :
    ((writeFile dir name d).map Prod.fst).Nodup := by
  induction dir with
  | nil => simp [writeFile]
  | cons f rest ih =>
      simp only [List.map_cons, List.nodup_cons] at h
      by_cases hf : f.1 = name
      · have hw : writeFile (f :: rest) name d = (name, d) :: rest := by
          simp [writeFile, hf]
        rw [hw]
        simp only [List.map_cons, List.nodup_cons]
        exact ⟨hf ▸ h.1, h.2⟩
      · have hw : writeFile (f :: rest) name d = f :: writeFile rest name d := by
          simp [writeFile, hf]
        rw [hw]
        simp only [List.map_cons, List.nodup_cons]
        refine ⟨fun hmem => ?_, ih h.2⟩
        rcases mem_names_writeFile hmem with he | he
        · exact hf he
        · exact h.1 he

/-- With distinct file names, a removed name is no longer found. -/
theorem lookup_erase_self (dir : CacheDir) (name : String)
    (h : (dir.map Prod.fst).Nodup) :
    lookupFile (eraseFile dir name) name = none := by
  induction dir with
  | nil => rfl
  | cons f rest ih =>
      simp only [List.map_cons, List.nodup_cons] at h
      by_cases hf : f.1 = name
      · simp only [eraseFile, hf, if_true]
        exact lookup_none_of_not_mem rest name (hf ▸ h.1)
      · simp [eraseFile, hf, lookupFile, ih h.2]

/-- Removing a found entry drops exactly that entry from the census: the
directory shrinks by one and the valid / expired tallies lose exactly the
removed entry's contribution. -/
theorem counts_erase (dir : CacheDir) (name : String) (d : FileData) (now : Nat)
    (h : lookupFile dir name = some d) :
    (eraseFile dir name).length + 1 = dir.length ∧
    countValid now (eraseFile dir name) + (if fileValid now d then 1 else 0) =
      countValid now dir ∧
    countExpired now (eraseFile dir name) + (if fileExpired now d then 1 else 0) =
      countExpired now dir := by
  induction dir with
  | nil => simp [lookupFile] at h
  | cons f rest ih =>
      by_cases hf : f.1 = name
      · have hd : f.2 = d := by simpa [lookupFile, hf] using h
        subst hd
        simp [eraseFile, hf, countValid, countExpired]
        omega
      · have hrest := ih (by simpa [lookupFile, hf] using h)
        simp only [eraseFile, hf, if_false, List.length_cons, countValid, countExpired]
        omega

/-- The GetStats walk adds the census of the remaining entries to the
running counters. -/
theorem getStatsLoop_eq (now : Nat) (l : CacheDir) : ∀ s : CacheStats,
    getStatsLoop now l s =
      ⟨s.totalEntries + l.length, s.validEntries + countValid now l,
       s.expiredEntries + countExpired now l⟩ := by
  induction l with
  | nil => intro s; simp [getStatsLoop, countValid, countExpired]
  | cons f rest ih =>
      intro s
      rw [getStatsLoop, ih]
      cases hf : f.2 with
      | valid e =>
          by_cases he : e.expiresAt < now
          · simp [statsBump, hf, he, countValid, countExpired, fileValid, fileExpired]
            omega
          · simp [statsBump, hf, he, countValid, countExpired, fileValid, fileExpired]
            omega
      | invalid =>
          simp [statsBump, hf, countValid, countExpired, fileValid, fileExpired]
          omega
      | unreadable =>
          simp [statsBump, hf, countValid, countExpired, fileValid, fileExpired]
          omega

/-- GetStats in closed form: the census is the directory length and the
valid / expired tallies. -/
theorem getStats_eq (dir : CacheDir) (now : Nat) :
    getStats dir now = ⟨dir.length, countValid now dir, countExpired now dir⟩ := by
  simp [getStats, getStatsLoop_eq]

/-- Claim C1 (code bug): the API client never consults the response cache.
At an input where the cache directory holds a fresh, unexpired entry under
the fingerprint of the parameterless courses listing — so a cache lookup at
that fingerprint is a hit — a ListCourses call still issues one network
request and returns the remotely fetched records; the Client record carries
no cache, so no cache state even appears among ListCourses' inputs, and the
call cannot return cached records without network access as the claim
requires. -/
theorem c1_cache_never_consulted :
    cacheGet freshCoursesDir "courses" 10 =
      (.ok (some ⟨"cached-courses-payload", 0, 1000⟩), freshCoursesDir) ∧
    listCourses none onePageFetch 1 =
      some ⟨.ok [convertCourse (rc "c1")], 1, 0, [""]⟩ := by
  decide

/-- Claim C2 (code bug): executeWithRetry ignores the caller's
Configuration.  With a configuration demanding MaxRetries = 1 and a 2s base
backoff, a run against an always-rate-limited remote still performs exactly
3 attempts with backoff 1s, 2s, 4s (returning at clock 7s, after a final
useless sleep), and fails with the fmt.Errorf wrap "after 3 attempts"
rather than honoring the configured budget — the constants 3 and 1s are
hardcoded in the source and the Configuration is never read. -/
theorem c2_config_ignored :
    (⟨2 * timeSecond, 1⟩ : Configuration).maxRetries = 1 ∧
    (executeWithRetry none fn429 0).calls = 3 ∧
    (executeWithRetry none fn429 0).clock = 7 * timeSecond ∧
    (executeWithRetry none fn429 0).result =
      .error (.wrapped "after 3 attempts: "
        (.raw "googleapi: Error 429: rateLimitExceeded")) := by
  decide

/-- Claim C3 (code bug): GenerateKey concatenates the parameters in the
order the map iteration happens to produce, without sorting, so the two
iteration orders of the same key/value set {a:1, b:2} yield different
fingerprints — the claimed order-independence fails. -/
theorem c3_key_order_dependent :
    generateKey "courses" [("a", "1"), ("b", "2")] = "courses&a=1&b=2" ∧
    generateKey "courses" [("b", "2"), ("a", "1")] = "courses&b=2&a=1" ∧
    generateKey "courses" [("a", "1"), ("b", "2")] ≠
      generateKey "courses" [("b", "2"), ("a", "1")] := by
  decide

/-- Claim C4 (code bug): the backoff sleep is a plain time.Sleep that no
cancellation can interrupt.  Against an always-rate-limited remote, a
context cancelled at 0.5s — in the middle of the first 1s backoff sleep —
is noticed only at the next iteration boundary after the sleep completes:
the call returns the cancellation error at clock 1s, not promptly at 0.5s;
and a context cancelled at 5s, during the final 4s sleep, is never noticed
at all: the call sleeps to 7s and returns the retries-exhausted error, not
a cancellation-class error. -/
theorem c4_sleep_uninterruptible :
    (executeWithRetry (some 500000000) fn429 0).result = .error .canceled ∧
    (executeWithRetry (some 500000000) fn429 0).clock = timeSecond ∧
    500000000 < timeSecond ∧
    (executeWithRetry (some (5 * timeSecond)) fn429 0).result =
      .error (.wrapped "after 3 attempts: "
        (.raw "googleapi: Error 429: rateLimitExceeded")) ∧
    (executeWithRetry (some (5 * timeSecond)) fn429 0).clock = 7 * timeSecond := by
  decide

/-- Claim C5 counterexample: storing at time 0 with ttl 5 and looking up at
time 5 — exactly the expiration instant, a time ≥ T after storing — returns
a hit with the stored entry, not the miss the claim requires, because the
source misses only when time.Now().After(ExpiresAt) holds strictly. -/
theorem c5_boundary_hit :
    cacheGet (cacheSet [] "k" "p" 5 0) "k" 5 =
      (.ok (some ⟨"p", 0, 5⟩), cacheSet [] "k" "p" 5 0) ∧
    (cacheGet (cacheSet [] "k" "p" 5 0) "k" 5).1 ≠ .ok none := by
  decide

/-- Claim C5 as amended: after Set(key, payload, T) at time now0 into a
directory with distinct file names, a Get at any time up to and including
now0 + T returns a hit with the stored entry; a Get at any time strictly
after now0 + T returns a miss, removes the entry from storage (a further
lookup finds nothing), and GetStats afterwards no longer counts the entry:
the total drops by exactly one while the valid tally is unchanged (the
entry was already past expiry, so it was not counted valid). -/
theorem c5_ttl_amended (dir : CacheDir) (key payload : String) (T now0 now : Nat)
    (hnodup : (dir.map Prod.fst).Nodup) :
    (now ≤ now0 + T →
      cacheGet (cacheSet dir key payload T now0) key now =
        (.ok (some ⟨payload, now0, now0 + T⟩), cacheSet dir key payload T now0)) ∧
    (now0 + T < now →
      cacheGet (cacheSet dir key payload T now0) key now =
        (.ok none, eraseFile (cacheSet dir key payload T now0) (cacheFileName key)) ∧
      lookupFile (eraseFile (cacheSet dir key payload T now0) (cacheFileName key))
        (cacheFileName key) = none ∧
      (getStats (eraseFile (cacheSet dir key payload T now0) (cacheFileName key)) now).validEntries =
        (getStats (cacheSet dir key payload T now0) now).validEntries ∧
      (getStats (eraseFile (cacheSet dir key payload T now0) (cacheFileName key)) now).totalEntries + 1 =
        (getStats (cacheSet dir key payload T now0) now).totalEntries) := by
  have hlook : lookupFile (cacheSet dir key payload T now0) (cacheFileName key) =
      some (.valid ⟨payload, now0, now0 + T⟩) := lookup_writeFile_self dir _ _
  constructor
  · intro hle
    simp only [cacheGet, hlook]
    rw [if_neg (Nat.not_lt.mpr hle)]
  · intro hlt
    have hnd2 := nodup_names_writeFile dir (cacheFileName key)
      (.valid ⟨payload, now0, now0 + T⟩) hnodup
    have hcounts := counts_erase (cacheSet dir key payload T now0) (cacheFileName key)
      (.valid ⟨payload, now0, now0 + T⟩) now hlook
    refine ⟨?_, ?_, ?_, ?_⟩
    · simp only [cacheGet, hlook]
      rw [if_pos hlt]
    · exact lookup_erase_self _ _ hnd2
    · rw [getStats_eq, getStats_eq]
      have hfv : fileValid now (.valid ⟨payload, now0, now0 + T⟩) = false := by
        simp [fileValid]
        omega
      have h2 := hcounts.2.1
      rw [hfv] at h2
      simpa using h2
    · rw [getStats_eq, getStats_eq]
      exact hcounts.1

/-- Claim C5 witness: with a fresh directory, key "k", payload "p", ttl 5
stored at time 0, the lookup at time 3 hits and the lookup at time 9 misses
and evicts. -/
theorem c5_ttl_witness :
    cacheGet (cacheSet [] "k" "p" 5 0) "k" 3 =
      (.ok (some ⟨"p", 0, 5⟩), cacheSet [] "k" "p" 5 0) ∧
    cacheGet (cacheSet [] "k" "p" 5 0) "k" 9 =
      (.ok none, eraseFile (cacheSet [] "k" "p" 5 0) (cacheFileName "k")) :=
  ⟨(c5_ttl_amended [] "k" "p" 5 0 3 (by simp)).1 (by decide),
   ((c5_ttl_amended [] "k" "p" 5 0 9 (by simp)).2 (by decide)).1⟩

/-- Claim C6 counterexample: for a remote answering 404, the client returns
after exactly one attempt, but the failure it hands back is the raw
transport error itself, untranslated — not a typed failure — contradicting
the claim that such responses come back as typed failures and never as raw
transport errors. -/
theorem c6_raw_passthrough :
    (executeWithRetry none fn404 0).result =
      .error (.raw "googleapi: Error 404: notFound") ∧
    (executeWithRetry none fn404 0).calls = 1 ∧
    GoError.isTypedFailure (.raw "googleapi: Error 404: notFound") = false := by
  decide

/-- Claim C6 as amended: for every remote whose first response is an error
classified as a non-rate-limit client error (its message matches
isAPIError but not isRateLimitError), the retry loop performs zero
retries — it returns after the single attempt, without sleeping — passing
the underlying error value through unchanged rather than converting it to
a typed failure. -/
theorem c6_short_circuit {α : Type} (fn : Nat → Except GoError α) (e : GoError) (t0 : Nat)
    (h1 : fn 0 = .error e) (h2 : isRateLimitError e.text = false)
    (h3 : isAPIError e.text = true) :
    executeWithRetry none fn t0 = ⟨.error e, 1, t0⟩ := by
  show retryLoop none fn 3 0 t0 timeSecond none = _
  rw [show (3 : Nat) = 2 + 1 from rfl, retryLoop_succ]
  simp [ctxDone, h1, h2, h3]

/-- Claim C6 witness: a remote answering 403 short-circuits after one
attempt with the raw 403 error. -/
theorem c6_short_circuit_witness :
    fn403 0 = .error (.raw "googleapi: Error 403: forbidden") ∧
    executeWithRetry none fn403 0 =
      ⟨.error (.raw "googleapi: Error 403: forbidden"), 1, 0⟩ :=
  ⟨rfl, c6_short_circuit fn403 _ 0 rfl (by decide) (by decide)⟩

/-- Claim C7 (code bug): when the remote refresh fails, RefreshToken
returns the wrapped error with the stored token file untouched — the
expired credential is neither removed nor marked, a subsequent load hands
out the very same known-bad token, and IsAuthenticated still reports true
through its refresh-token clause. -/
theorem c7_refresh_failure_keeps_token :
    refreshToken (TokenFile.stored staleToken) (fun _ => .error "invalid_grant") =
      (.error "failed to refresh token: invalid_grant", TokenFile.stored staleToken) ∧
    loadToken (refreshToken (TokenFile.stored staleToken)
      (fun _ => .error "invalid_grant")).2 = .ok staleToken ∧
    tokenExpired staleToken (100 * timeSecond) = true ∧
    isAuthenticated (refreshToken (TokenFile.stored staleToken)
      (fun _ => .error "invalid_grant")).2 (100 * timeSecond) = true := by
  decide

/-- Claim C8 (confirmed): against a remote serving a finite chain of pages,
ListCourses requests exactly the chain's tokens in order — the first
request with no token, each later request with the previous page's
continuation token — terminates exactly when the remote returns the empty
token, and returns all pages' records converted and concatenated in page
order, with one network request per page. -/
theorem c8_pagination {fetch : String → Nat → Except GoError CoursesPage}
    {ps : List (List ClassroomCourse)} {toks : List String}
    (h : ServesFrom fetch "" ps toks) (fuel : Nat) (hfuel : ps.length ≤ fuel) :
    listCourses none fetch fuel =
      some ⟨.ok ((ps.map (fun p => p.map convertCourse)).flatten),
            ps.length, 0, toks⟩ := by
  have hrun := listCoursesLoop_serves h fuel hfuel [] 0 0 []
  simpa [listCourses] using hrun

/-- Claim C8 witness: three pages of sizes 2, 2 and 1 assemble into one
collection of 5 records in page order, fetched with exactly 3 requests at
the token chain "", "t1", "t2". -/
theorem c8_pagination_witness :
    listCourses none pagedFetch 3 =
      some ⟨.ok (([[rc "c1", rc "c2"], [rc "c3", rc "c4"],
              [rc "c5"]].map (fun p => p.map convertCourse)).flatten),
            3, 0, ["", "t1", "t2"]⟩ ∧
    (([[rc "c1", rc "c2"], [rc "c3", rc "c4"],
        [rc "c5"]].map (fun p => p.map convertCourse)).flatten).length = 5 := by
  have hs : ServesFrom pagedFetch ""
      [[rc "c1", rc "c2"], [rc "c3", rc "c4"], [rc "c5"]] ["", "t1", "t2"] :=
    ServesFrom.cons _ _ _ _ _ rfl (by decide)
      (ServesFrom.cons _ _ _ _ _ rfl (by decide) (ServesFrom.last _ _ rfl))
  exact ⟨c8_pagination hs 3 (by decide), by decide⟩

/-- Claim C9 (confirmed): IsAuthenticated is true exactly when the token
file holds a stored token (loadToken succeeds) that is currently valid or
carries a non-empty refresh token; in particular it is false when nothing
is stored. -/
theorem c9_is_authenticated (f : TokenFile) (now : Nat) :
    (isAuthenticated f now = true ↔
      ∃ t, f = TokenFile.stored t ∧
        (tokenValid t now = true ∨ t.refreshToken ≠ "")) ∧
    isAuthenticated TokenFile.missing now = false := by
  refine ⟨?_, rfl⟩
  cases f with
  | missing => simp [isAuthenticated, loadToken]
  | unreadable => simp [isAuthenticated, loadToken]
  | corrupt => simp [isAuthenticated, loadToken]
  | stored t => simp [isAuthenticated, loadToken, bne_iff_ne]

/-- Claim C10 (confirmed): Get reports a miss as a nil entry with a nil
error exactly when the file is absent or the stored entry has expired —
the two miss causes are indistinguishable in the return value — and
reports an error exactly when the file read fails for a reason other than
non-existence or the stored bytes fail to parse. -/
theorem c10_miss_error (dir : CacheDir) (key : String) (now : Nat) :
    ((cacheGet dir key now).1 = .ok none ↔
      (lookupFile dir (cacheFileName key) = none ∨
        ∃ e, lookupFile dir (cacheFileName key) = some (.valid e) ∧
          e.expiresAt < now)) ∧
    ((∃ msg, (cacheGet dir key now).1 = .error msg) ↔
      (lookupFile dir (cacheFileName key) = some .unreadable ∨
        lookupFile dir (cacheFileName key) = some .invalid)) := by
  cases hl : lookupFile dir (cacheFileName key) with
  | none => simp [cacheGet, hl]
  | some d =>
      cases d with
      | valid e =>
          by_cases he : e.expiresAt < now
          · simp [cacheGet, hl, he]
          · simp [cacheGet, hl, he]
      | invalid => simp [cacheGet, hl]
      | unreadable => simp [cacheGet, hl]
